import Mathlib

/-!
# Verification of the `pathte` path classification and conversion core

This file is a shallow embedding of `src/path.rs` and `src/path_selection.rs`.
Path texts are modelled as `List Char`; the `regex` patterns of the source are
translated into decidable boolean functions, and every fallible operation
(`Result<_, String>` in the source) is modelled as an `Option`.
-/

/-- The `PathType` enumeration of `src/path.rs`. -/
inductive PathType where
  | Windows
  | Unix
  | Wsl
deriving DecidableEq, BEq, Repr

/-- The character class `[\x00-\x1F<>:"|?*/]` that the second alternative of
`WINDOWS_REGEX` forbids (its complement appears in the pattern). -/
def winForbidden (c : Char) : Bool :=
  c.toNat < 32 || c = '<' || c = '>' || c = ':' || c = '\"' || c = '|' ||
    c = '?' || c = '*' || c = '/'

/-- First alternative of `WINDOWS_REGEX`, `^([a-zA-Z]:\\?$)`: the whole text is
a drive letter followed by `:` and an optional trailing backslash. -/
def WINDOWS_REGEX_drive : List Char → Bool
  | [l, ':'] => l.isAlpha
  | [l, ':', '\\'] => l.isAlpha
  | _ => false

/-- Second alternative of `WINDOWS_REGEX`, `([^\x00-\x1F<>:"|?*/]*\\[^\x00-\x1F<>:"|?*/]*$)`.
It is anchored only at the end of the text, and `Regex::is_match` searches all
start positions, so it matches exactly when some backslash is followed (up to
the end of the text) only by characters outside the forbidden class.  The
leading `[^...]*` adds no matching power because it may be empty. -/
def WINDOWS_REGEX_suffix : List Char → Bool
  | [] => false
  | c :: rest =>
    (c = '\\' && rest.all (fun d => !winForbidden d)) || WINDOWS_REGEX_suffix rest

/-- `WINDOWS_REGEX.is_match`: the alternation of the two alternatives above. -/
def WINDOWS_REGEX_match (s : List Char) : Bool :=
  WINDOWS_REGEX_drive s || WINDOWS_REGEX_suffix s

/-- `UNIX_REGEX.is_match` for `^[^\x00]*/[^\x00]*$`: the whole text splits at a
forward slash into two NUL-free parts, i.e. the text contains a `/` and no NUL. -/
def UNIX_REGEX_match (s : List Char) : Bool :=
  s.contains '/' && !(s.contains '\x00')

/-- `WSL_REGEX.is_match` for `^/mnt/(([A-Za-z]/?$)|([A-Za-z]/[^\x00]*))$`:
after the literal `/mnt/` comes an ASCII letter, followed either by the end of
text, or by a `/` and a NUL-free tail (which also covers the `[A-Za-z]/$` case). -/
def WSL_REGEX_match : List Char → Bool
  | '/' :: 'm' :: 'n' :: 't' :: '/' :: l :: rest =>
    l.isAlpha &&
      (match rest with
        | [] => true
        | '/' :: tail => !(tail.contains '\x00')
        | _ => false)
  | _ => false

/-- `PROTOCOL_REGEX.is_match` for `(http|https|ftp|sftp|file):$`: the text ends
with one of the scheme names followed by a colon.  (This pattern is declared in
`src/path.rs` but never consulted by any of the validity checks.) -/
def PROTOCOL_REGEX_match (s : List Char) : Bool :=
  ("http:").data.isSuffixOf s || ("https:").data.isSuffixOf s ||
    ("ftp:").data.isSuffixOf s || ("sftp:").data.isSuffixOf s ||
    ("file:").data.isSuffixOf s

/-- `path.contains("//")` of the source: some position starts two consecutive
forward slashes. -/
def hasDoubleSlash : List Char → Bool
  | '/' :: '/' :: _ => true
  | _ :: rest => hasDoubleSlash rest
  | [] => false

/-- `WindowsPath::is_windows_path`: reject on a line break, else `WINDOWS_REGEX`. -/
def WindowsPath.is_windows_path (s : List Char) : Bool :=
  !(s.contains '\n') && WINDOWS_REGEX_match s

/-- `UnixPath::is_unix_path`: reject on `//` or a line break, else `UNIX_REGEX`. -/
def UnixPath.is_unix_path (s : List Char) : Bool :=
  !(hasDoubleSlash s || s.contains '\n') && UNIX_REGEX_match s

/-- `WslPath::is_wsl_path`: reject on `//` or a line break, else `WSL_REGEX`. -/
def WslPath.is_wsl_path (s : List Char) : Bool :=
  !(hasDoubleSlash s || s.contains '\n') && WSL_REGEX_match s

/-- `WindowsPath::new`: validate, returning the path text on success. -/
def WindowsPath.new (s : List Char) : Option (List Char) :=
  if WindowsPath.is_windows_path s then some s else none

/-- `UnixPath::new`. -/
def UnixPath.new (s : List Char) : Option (List Char) :=
  if UnixPath.is_unix_path s then some s else none

/-- `WslPath::new`. -/
def WslPath.new (s : List Char) : Option (List Char) :=
  if WslPath.is_wsl_path s then some s else none

/-- `str::replace('\\', "/")` on a path text, character by character. -/
def backslashToSlash (c : Char) : Char :=
  if c = '\\' then '/' else c

/-- `str::replace('/', "\\")` on a path text, character by character. -/
def slashToBackslash (c : Char) : Char :=
  if c = '/' then '\\' else c

/-- `Regex::new("^([A-Za-z]):").replace(path, "/mnt/<lowercased letter>")`:
rewrite a leading drive prefix, leave the text unchanged when it has none.
`Char.toLower` agrees with Rust's `to_lowercase` on the ASCII letters the
pattern can capture. -/
def windowsDriveRewrite : List Char → List Char
  | l :: ':' :: rest =>
    if l.isAlpha then '/' :: 'm' :: 'n' :: 't' :: '/' :: l.toLower :: rest
    else l :: ':' :: rest
  | s => s

/-- `Regex::new("^/mnt/([A-Za-z])").replace(path, "<uppercased letter>:")`:
rewrite a leading `/mnt/<letter>` prefix, leave the text unchanged otherwise.
`Char.toUpper` agrees with Rust's `to_uppercase` on ASCII letters. -/
def wslDriveRewrite : List Char → List Char
  | '/' :: 'm' :: 'n' :: 't' :: '/' :: l :: rest =>
    if l.isAlpha then l.toUpper :: ':' :: rest
    else '/' :: 'm' :: 'n' :: 't' :: '/' :: l :: rest
  | s => s

/-- `<WindowsPath as Path>::to_windows`: identity. -/
def WindowsPath.to_windows (s : List Char) : Option (List Char) :=
  some s

/-- `<WindowsPath as Path>::to_unix`: substitute slashes, then re-validate. -/
def WindowsPath.to_unix (s : List Char) : Option (List Char) :=
  UnixPath.new (s.map backslashToSlash)

/-- `<WindowsPath as Path>::to_wsl`: rewrite the drive prefix, substitute
slashes, then re-validate. -/
def WindowsPath.to_wsl (s : List Char) : Option (List Char) :=
  WslPath.new ((windowsDriveRewrite s).map backslashToSlash)

/-- `<UnixPath as Path>::to_windows`. -/
def UnixPath.to_windows (s : List Char) : Option (List Char) :=
  WindowsPath.new (s.map slashToBackslash)

/-- `<UnixPath as Path>::to_unix`: identity. -/
def UnixPath.to_unix (s : List Char) : Option (List Char) :=
  some s

/-- `<UnixPath as Path>::to_wsl`: pass the text through unchanged, validated
against the WSL pattern. -/
def UnixPath.to_wsl (s : List Char) : Option (List Char) :=
  WslPath.new s

/-- `<WslPath as Path>::to_windows`. -/
def WslPath.to_windows (s : List Char) : Option (List Char) :=
  WindowsPath.new ((wslDriveRewrite s).map slashToBackslash)

/-- `<WslPath as Path>::to_unix`: pass the text through unchanged, validated
against the Unix pattern. -/
def WslPath.to_unix (s : List Char) : Option (List Char) :=
  UnixPath.new s

/-- `<WslPath as Path>::to_wsl`: identity. -/
def WslPath.to_wsl (s : List Char) : Option (List Char) :=
  some s

/-- Dynamic dispatch of `Path::to_windows` over the concrete type. -/
def Path.to_windows : PathType → List Char → Option (List Char)
  | .Windows, s => WindowsPath.to_windows s
  | .Unix, s => UnixPath.to_windows s
  | .Wsl, s => WslPath.to_windows s

/-- Dynamic dispatch of `Path::to_unix` over the concrete type. -/
def Path.to_unix : PathType → List Char → Option (List Char)
  | .Windows, s => WindowsPath.to_unix s
  | .Unix, s => UnixPath.to_unix s
  | .Wsl, s => WslPath.to_unix s

/-- Dynamic dispatch of `Path::to_wsl` over the concrete type. -/
def Path.to_wsl : PathType → List Char → Option (List Char)
  | .Windows, s => WindowsPath.to_wsl s
  | .Unix, s => UnixPath.to_wsl s
  | .Wsl, s => WslPath.to_wsl s

/-- The `PathSelection` struct: the surviving conversion results (each a typed
path, mirroring `Box<dyn Path>` together with its `get_type()`), and the
current index. -/
structure PathSelection where
  options : List (PathType × List Char)
  current : Nat
deriving DecidableEq, Repr

/-- `PathSelection::get_initial_path`: try the constructors in the order
Windows, Unix, WSL; the first that validates decides the classification. -/
def PathSelection.get_initial_path (s : List Char) : Option (PathType × List Char) :=
  match WindowsPath.new s with
  | some p => some (PathType.Windows, p)
  | none =>
    match UnixPath.new s with
    | some p => some (PathType.Unix, p)
    | none =>
      match WslPath.new s with
      | some p => some (PathType.Wsl, p)
      | none => none

/-- The `ok_options` vector of `PathSelection::new`: the three conversion
results in the fixed order Windows, Unix, WSL, keeping only the successes. -/
def PathSelection.ok_options (t : PathType) (s : List Char) : List (PathType × List Char) :=
  ([(Path.to_windows t s).map (fun r => (PathType.Windows, r)),
    (Path.to_unix t s).map (fun r => (PathType.Unix, r)),
    (Path.to_wsl t s).map (fun r => (PathType.Wsl, r))]).filterMap id

/-- `PathSelection::new`: classify, convert to all three formats, drop the
selection when exactly one option survives, else select the position of the
initially classified type (`0` if it is somehow absent). -/
def PathSelection.new (raw : List Char) : Option PathSelection :=
  match PathSelection.get_initial_path raw with
  | none => none
  | some (t, s) =>
    let ok_options := PathSelection.ok_options t s
    if ok_options.length = 1 then none
    else
      some { options := ok_options
             current := (ok_options.findIdx? (fun x => x.1 == t)).getD 0 }

/-- `PathSelection::next`. -/
def PathSelection.next (p : PathSelection) : PathSelection :=
  { p with current := (p.current + 1) % p.options.length }

/-- `PathSelection::previous`. -/
def PathSelection.previous (p : PathSelection) : PathSelection :=
  { p with current := (p.current + p.options.length - 1) % p.options.length }

/-- `PathSelection::get_selected_path_string`: the text at the current index.
(The source indexes the vector directly, which panics out of range; under the
selection invariant `current` is always in range, so the default is inert.) -/
def PathSelection.get_selected_path_string (p : PathSelection) : List Char :=
  (p.options.getD p.current (PathType.Windows, [])).2

/-- Counting the reachable formats of an input: `0` when classification fails,
else the number of conversions that succeed (`ok_options`). -/
def reachable_count (s : List Char) : Nat :=
  match PathSelection.get_initial_path s with
  | none => 0
  | some (t, p) => (PathSelection.ok_options t p).length

/-- `validates check o` holds when a conversion result `o` is either a failure
or a text accepted by the target format's check. -/
def validates (check : List Char → Bool) : Option (List Char) → Bool
  | none => true
  | some t => check t

/-- The selection produced from `"C:\Users\test\file.txt"` (claim C6). -/
def c6sel : PathSelection :=
  { options := [(PathType.Windows, ("C:\\Users\\test\\file.txt").data),
                (PathType.Unix, ("C:/Users/test/file.txt").data),
                (PathType.Wsl, ("/mnt/c/Users/test/file.txt").data)]
    current := 0 }

/-- A three-option selection used to witness the cycling laws (claim C8). -/
def c8sel : PathSelection :=
  { options := [(PathType.Windows, ("C:").data),
                (PathType.Unix, ("C:/").data),
                (PathType.Wsl, ("/mnt/c").data)]
    current := 0 }

example : WindowsPath.is_windows_path ("C:\\Users\\test\\file.txt").data = true := by decide
example : WindowsPath.is_windows_path ("C:").data = true := by decide
example : WindowsPath.is_windows_path ("C:Users").data = false := by decide
example : WindowsPath.is_windows_path ("C:/Users/test/file.txt").data = false := by decide
example : UnixPath.is_unix_path ("/home/user/file.txt").data = true := by decide
example : UnixPath.is_unix_path ("// Comment").data = false := by decide
example : WslPath.is_wsl_path ("/mnt/c/Users/test/file.txt").data = true := by decide
example : WslPath.is_wsl_path ("/mnt/D").data = true := by decide
example : WslPath.is_wsl_path ("/mnt/drive/Users").data = false := by decide
example : WindowsPath.to_unix ("C:\\Users\\test\\file.txt").data
    = some ("C:/Users/test/file.txt").data := by decide
example : WindowsPath.to_wsl ("D:").data = some ("/mnt/d").data := by decide
example : WslPath.to_windows ("/mnt/D/").data = some ("D:\\").data := by decide
example : WslPath.to_unix ("/mnt/c/Users/").data = some ("/mnt/c/Users/").data := by decide

lemma charToNat_ofNat {n : Nat} (h : n < 55296) : (Char.ofNat n).toNat = n := by
  rw [Char.ofNat, dif_pos (Or.inl h)]
  rfl

lemma isUpper_iff {c : Char} : c.isUpper = true ↔ (65 ≤ c.toNat ∧ c.toNat ≤ 90) := by
  simp only [Char.isUpper, ge_iff_le, Bool.and_eq_true, decide_eq_true_eq,
    UInt32.le_def, BitVec.le_def]
  have h1 : ((65 : UInt32)).toBitVec.toNat = 65 := by decide
  have h2 : ((90 : UInt32)).toBitVec.toNat = 90 := by decide
  rw [h1, h2]
  exact Iff.rfl

lemma isLower_iff {c : Char} : c.isLower = true ↔ (97 ≤ c.toNat ∧ c.toNat ≤ 122) := by
  simp only [Char.isLower, ge_iff_le, Bool.and_eq_true, decide_eq_true_eq,
    UInt32.le_def, BitVec.le_def]
  have h1 : ((97 : UInt32)).toBitVec.toNat = 97 := by decide
  have h2 : ((122 : UInt32)).toBitVec.toNat = 122 := by decide
  rw [h1, h2]
  exact Iff.rfl

lemma toLower_of_upper {c : Char} (h : c.isUpper = true) :
    c.toLower = Char.ofNat (c.toNat + 32) := by
  obtain ⟨h1, h2⟩ := isUpper_iff.mp h
  rw [Char.toLower, if_pos ⟨h1, h2⟩]

lemma toLower_of_lower {c : Char} (h : c.isLower = true) : c.toLower = c := by
  obtain ⟨h1, h2⟩ := isLower_iff.mp h
  rw [Char.toLower, if_neg]
  omega

lemma toUpper_of_lower {c : Char} (h : c.isLower = true) :
    c.toUpper = Char.ofNat (c.toNat - 32) := by
  obtain ⟨h1, h2⟩ := isLower_iff.mp h
  rw [Char.toUpper, if_pos ⟨h1, h2⟩]

lemma toLower_isLower {c : Char} (h : c.isAlpha = true) : c.toLower.isLower = true := by
  rw [Char.isAlpha, Bool.or_eq_true] at h
  cases h with
  | inl h =>
    obtain ⟨h1, h2⟩ := isUpper_iff.mp h
    rw [toLower_of_upper h]
    rw [isLower_iff, charToNat_ofNat (by omega)]
    omega
  | inr h =>
    rw [toLower_of_lower h]
    exact h

lemma toUpper_isUpper_of_lower {c : Char} (h : c.isLower = true) :
    c.toUpper.isUpper = true := by
  obtain ⟨h1, h2⟩ := isLower_iff.mp h
  rw [toUpper_of_lower h, isUpper_iff, charToNat_ofNat (by omega)]
  omega

lemma lower_toUpper_toLower {c : Char} (h : c.isLower = true) :
    c.toUpper.toLower = c := by
  obtain ⟨h1, h2⟩ := isLower_iff.mp h
  rw [toUpper_of_lower h]
  have hn : (Char.ofNat (c.toNat - 32)).toNat = c.toNat - 32 := charToNat_ofNat (by omega)
  rw [Char.toLower, hn, if_pos (by omega)]
  have heq : c.toNat - 32 + 32 = c.toNat := by omega
  rw [heq]
  exact Char.ofNat_toNat c

lemma isLower_isAlpha {c : Char} (h : c.isLower = true) : c.isAlpha = true := by
  rw [Char.isAlpha, Bool.or_eq_true]
  exact Or.inr h

lemma isUpper_isAlpha {c : Char} (h : c.isUpper = true) : c.isAlpha = true := by
  rw [Char.isAlpha, Bool.or_eq_true]
  exact Or.inl h

lemma alpha_toNat_range {c : Char} (h : c.isAlpha = true) :
    (65 ≤ c.toNat ∧ c.toNat ≤ 90) ∨ (97 ≤ c.toNat ∧ c.toNat ≤ 122) := by
  rw [Char.isAlpha, Bool.or_eq_true] at h
  cases h with
  | inl h => exact Or.inl (isUpper_iff.mp h)
  | inr h => exact Or.inr (isLower_iff.mp h)

lemma alpha_ne_of_toNat {c d : Char} (h : c.isAlpha = true)
    (hd : (65 ≤ d.toNat ∧ d.toNat ≤ 90) ∨ (97 ≤ d.toNat ∧ d.toNat ≤ 122) → False) :
    c ≠ d := by
  intro he
  subst he
  exact hd (alpha_toNat_range h)

lemma isAlpha_ne_backslash {c : Char} (h : c.isAlpha = true) : c ≠ '\\' :=
  alpha_ne_of_toNat h (by decide)

lemma isAlpha_ne_slash {c : Char} (h : c.isAlpha = true) : c ≠ '/' :=
  alpha_ne_of_toNat h (by decide)

lemma isAlpha_ne_nul {c : Char} (h : c.isAlpha = true) : c ≠ '\x00' :=
  alpha_ne_of_toNat h (by decide)

lemma WSL_REGEX_structure {s : List Char} (h : WSL_REGEX_match s = true) :
    ∃ l rest, l.isAlpha = true ∧ s = '/' :: 'm' :: 'n' :: 't' :: '/' :: l :: rest ∧
      (rest = [] ∨ ∃ tail, rest = '/' :: tail ∧ tail.contains '\x00' = false) := by
  unfold WSL_REGEX_match at h
  split at h
  · next l rest =>
    rw [Bool.and_eq_true] at h
    obtain ⟨hl, hrest⟩ := h
    refine ⟨l, rest, hl, rfl, ?_⟩
    split at hrest
    · exact Or.inl rfl
    · next tail => exact Or.inr ⟨tail, rfl, by simpa using hrest⟩
    · exact absurd hrest (by simp)
  · exact absurd h (by simp)

lemma WSL_REGEX_imp_unix {s : List Char} (h : WSL_REGEX_match s = true) :
    UNIX_REGEX_match s = true := by
  obtain ⟨l, rest, hl, hs, hrest⟩ := WSL_REGEX_structure h
  subst hs
  rw [UNIX_REGEX_match, Bool.and_eq_true]
  constructor
  · simp
  · simp only [Bool.not_eq_true', List.contains_cons]
    have hlne : (('\x00' : Char) == l) = false := by
      rw [beq_eq_false_iff_ne]
      exact fun he => isAlpha_ne_nul hl he.symm
    rcases hrest with hrest | ⟨tail, hrest, htail⟩
    · subst hrest
      simp [hlne]
    · subst hrest
      have : ('\x00' : Char) ∉ tail := by simpa using htail
      simp [hlne, this]

lemma is_wsl_imp_is_unix {s : List Char} (h : WslPath.is_wsl_path s = true) :
    UnixPath.is_unix_path s = true := by
  rw [WslPath.is_wsl_path, Bool.and_eq_true] at h
  rw [UnixPath.is_unix_path, Bool.and_eq_true]
  exact ⟨h.1, WSL_REGEX_imp_unix h.2⟩

/-- Claim C1, counterexample: `WslPath::to_unix` on `"/mnt/c/Users"` succeeds but
returns the text unchanged, not with the `/mnt/c` prefix stripped to `"/Users"`. -/
theorem c1_counterexample :
    WslPath.is_wsl_path (("/mnt/c/Users").data) = true ∧
    WslPath.to_unix (("/mnt/c/Users").data) = some (("/mnt/c/Users").data) ∧
    ¬ WslPath.to_unix (("/mnt/c/Users").data) = some (("/Users").data) := by
  decide

/-- Claim C1 (corrected): for every valid WSL path, `to_unix` succeeds and returns
the text unchanged; the `/mnt/<letter>` prefix is not stripped (a WSL path is
already a valid Unix path). -/
theorem c1_to_unix_is_identity :
    ∀ s : List Char, WslPath.is_wsl_path s = true → WslPath.to_unix s = some s := by
  intro s h
  rw [WslPath.to_unix, UnixPath.new, if_pos (is_wsl_imp_is_unix h)]

/-- Claim C1, witness: the corrected theorem evaluated at `"/mnt/d/projects"`. -/
theorem c1_witness :
    WslPath.is_wsl_path (("/mnt/d/projects").data) = true ∧
    WslPath.to_unix (("/mnt/d/projects").data) = some (("/mnt/d/projects").data) :=
  ⟨by decide, c1_to_unix_is_identity _ (by decide)⟩

/-- Claim C2, counterexample: `"/mnt/c/Users/test/file.txt"` matches the WSL
pattern, yet classification returns Unix, not Wsl. -/
theorem c2_counterexample :
    WslPath.is_wsl_path (("/mnt/c/Users/test/file.txt").data) = true ∧
    PathSelection.get_initial_path (("/mnt/c/Users/test/file.txt").data)
      = some (PathType.Unix, ("/mnt/c/Users/test/file.txt").data) := by
  decide

/-- Claim C2 (corrected): classification tries Windows, then Unix, then WSL; for
every string matching the WSL pattern the result is Windows when the Windows
pattern also matches, otherwise Unix, never Wsl (WSL-valid texts are Unix-valid). -/
theorem c2_classification_order :
    ∀ s : List Char, WslPath.is_wsl_path s = true →
      PathSelection.get_initial_path s =
        (if WindowsPath.is_windows_path s = true then some (PathType.Windows, s)
         else some (PathType.Unix, s)) := by
  intro s h
  by_cases hw : WindowsPath.is_windows_path s = true
  · rw [if_pos hw]
    simp [PathSelection.get_initial_path, WindowsPath.new, hw]
  · rw [if_neg hw]
    simp [PathSelection.get_initial_path, WindowsPath.new, UnixPath.new, hw,
      is_wsl_imp_is_unix h]

/-- Claim C2, witness: the corrected theorem evaluated at `"/mnt/D"`. -/
theorem c2_witness :
    WslPath.is_wsl_path (("/mnt/D").data) = true ∧
    PathSelection.get_initial_path (("/mnt/D").data) =
      (if WindowsPath.is_windows_path (("/mnt/D").data) = true
       then some (PathType.Windows, ("/mnt/D").data)
       else some (PathType.Unix, ("/mnt/D").data)) :=
  ⟨by decide, c2_classification_order _ (by decide)⟩

/-- Claim C3, counterexample: the NUL-containing text `"\x00\\"` is recognized as
Windows (the second `WINDOWS_REGEX` alternative is not anchored at the start),
and `"a/http:"` ends in a URL scheme per `PROTOCOL_REGEX` yet classifies as Unix
(the protocol pattern is never consulted). -/
theorem c3_counterexample :
    (['\x00', '\\']).contains '\x00' = true ∧
    PathSelection.get_initial_path ['\x00', '\\'] = some (PathType.Windows, ['\x00', '\\']) ∧
    PROTOCOL_REGEX_match (("a/http:").data) = true ∧
    PathSelection.get_initial_path (("a/http:").data)
      = some (PathType.Unix, ("a/http:").data) := by
  decide

/-- Claim C3 (corrected): every string containing a line break is rejected by all
three validity checks, so classification returns nothing; a string containing a
NUL character is rejected by the Unix and WSL checks (but may still pass the
Windows check). -/
theorem c3_line_break_rejected :
    ∀ s : List Char,
      (s.contains '\n' = true → PathSelection.get_initial_path s = none) ∧
      (s.contains '\x00' = true →
        UnixPath.is_unix_path s = false ∧ WslPath.is_wsl_path s = false) := by
  intro s
  constructor
  · intro h
    have hmem : ('\n' : Char) ∈ s := by simpa using h
    have hw : WindowsPath.is_windows_path s = false := by
      simp [WindowsPath.is_windows_path, hmem]
    have hu : UnixPath.is_unix_path s = false := by
      simp [UnixPath.is_unix_path, hmem]
    have hl : WslPath.is_wsl_path s = false := by
      simp [WslPath.is_wsl_path, hmem]
    simp [PathSelection.get_initial_path, WindowsPath.new, UnixPath.new, WslPath.new,
      hw, hu, hl]
  · intro h
    have hmem : ('\x00' : Char) ∈ s := by simpa using h
    constructor
    · simp [UnixPath.is_unix_path, UNIX_REGEX_match, hmem]
    · rw [WslPath.is_wsl_path]
      cases hm : WSL_REGEX_match s with
      | false => simp
      | true =>
        have hun := WSL_REGEX_imp_unix hm
        rw [UNIX_REGEX_match, h, Bool.and_eq_true] at hun
        simp at hun

/-- Claim C3, witness: the corrected theorem evaluated at `"a\nb"` and
`"h\x00me/user"`. -/
theorem c3_witness :
    (("a\nb").data).contains '\n' = true ∧
    PathSelection.get_initial_path (("a\nb").data) = none ∧
    (("h\x00me/user").data).contains '\x00' = true ∧
    UnixPath.is_unix_path (("h\x00me/user").data) = false ∧
    WslPath.is_wsl_path (("h\x00me/user").data) = false :=
  ⟨by decide, (c3_line_break_rejected _).1 (by decide), by decide,
   ((c3_line_break_rejected _).2 (by decide)).1,
   ((c3_line_break_rejected _).2 (by decide)).2⟩

lemma ok_options_ne_nil (t : PathType) (p : List Char) :
    PathSelection.ok_options t p ≠ [] := by
  have hmem : (t, p) ∈ PathSelection.ok_options t p := by
    rw [PathSelection.ok_options, List.mem_filterMap]
    refine ⟨some (t, p), ?_, rfl⟩
    cases t <;>
      simp [Path.to_windows, Path.to_unix, Path.to_wsl, WindowsPath.to_windows,
        UnixPath.to_unix, WslPath.to_wsl]
  exact List.ne_nil_of_mem hmem

/-- Claim C4, counterexample: the drive-letter-less Unix path
`"/home/user/file.txt"` converts to Windows by slash substitution, so two
formats are reachable and a selection is created. -/
theorem c4_counterexample :
    UnixPath.is_unix_path (("/home/user/file.txt").data) = true ∧
    PathSelection.new (("/home/user/file.txt").data) =
      some { options := [(PathType.Windows, ("\\home\\user\\file.txt").data),
                         (PathType.Unix, ("/home/user/file.txt").data)]
             current := 1 } := by
  decide

/-- Claim C4 (corrected): `PathSelection::new` returns no selection whenever fewer
than two formats are reachable from the input; but a drive-letter-less Unix path
reaches Windows as well, so it is not an instance of this case. -/
theorem c4_fewer_than_two_no_selection :
    ∀ s : List Char, reachable_count s < 2 → PathSelection.new s = none := by
  intro s h
  cases hg : PathSelection.get_initial_path s with
  | none => simp [PathSelection.new, hg]
  | some tp =>
    obtain ⟨t, p⟩ := tp
    simp only [reachable_count, hg] at h
    have hpos : 0 < (PathSelection.ok_options t p).length :=
      List.length_pos.mpr (ok_options_ne_nil t p)
    have h1 : (PathSelection.ok_options t p).length = 1 := by omega
    simp [PathSelection.new, hg, h1]

/-- Claim C4, witness: only Windows is reachable from `"\x00a\\b"`, so no
selection is created. -/
theorem c4_witness :
    reachable_count ['\x00', 'a', '\\', 'b'] < 2 ∧
    PathSelection.new ['\x00', 'a', '\\', 'b'] = none :=
  ⟨by decide, c4_fewer_than_two_no_selection _ (by decide)⟩

lemma validates_ite (check : List Char → Bool) (s : List Char) :
    validates check (if check s then some s else none) = true := by
  split
  · next h => exact h
  · rfl

/-- Claim C5: every constructor validates its text against its own format, and
every conversion re-validates its output against the target format's pattern
before returning success (for the identity conversions, under the constructor
invariant that the input text is valid for its own format). -/
theorem c5_all_conversions_validate :
    ∀ s : List Char,
      validates WindowsPath.is_windows_path (WindowsPath.new s) = true ∧
      validates UnixPath.is_unix_path (UnixPath.new s) = true ∧
      validates WslPath.is_wsl_path (WslPath.new s) = true ∧
      validates UnixPath.is_unix_path (WindowsPath.to_unix s) = true ∧
      validates WslPath.is_wsl_path (WindowsPath.to_wsl s) = true ∧
      validates WindowsPath.is_windows_path (UnixPath.to_windows s) = true ∧
      validates WslPath.is_wsl_path (UnixPath.to_wsl s) = true ∧
      validates WindowsPath.is_windows_path (WslPath.to_windows s) = true ∧
      validates UnixPath.is_unix_path (WslPath.to_unix s) = true ∧
      (WindowsPath.is_windows_path s = true →
        validates WindowsPath.is_windows_path (WindowsPath.to_windows s) = true) ∧
      (UnixPath.is_unix_path s = true →
        validates UnixPath.is_unix_path (UnixPath.to_unix s) = true) ∧
      (WslPath.is_wsl_path s = true →
        validates WslPath.is_wsl_path (WslPath.to_wsl s) = true) := by
  intro s
  exact ⟨validates_ite _ s, validates_ite _ s, validates_ite _ s,
    validates_ite _ _, validates_ite _ _, validates_ite _ _, validates_ite _ _,
    validates_ite _ _, validates_ite _ _, fun h => h, fun h => h, fun h => h⟩

/-- Claim C5, witness: the theorem evaluated at `"/mnt/c/a\\b"`, a text valid in
all three formats, discharging the three identity-conversion hypotheses. -/
theorem c5_witness :
    WindowsPath.is_windows_path (("/mnt/c/a\\b").data) = true ∧
    UnixPath.is_unix_path (("/mnt/c/a\\b").data) = true ∧
    WslPath.is_wsl_path (("/mnt/c/a\\b").data) = true ∧
    validates WindowsPath.is_windows_path
      (WindowsPath.to_windows (("/mnt/c/a\\b").data)) = true ∧
    validates UnixPath.is_unix_path (UnixPath.to_unix (("/mnt/c/a\\b").data)) = true ∧
    validates WslPath.is_wsl_path (WslPath.to_wsl (("/mnt/c/a\\b").data)) = true :=
  ⟨by decide, by decide, by decide,
   (c5_all_conversions_validate _).2.2.2.2.2.2.2.2.2.1 (by decide),
   (c5_all_conversions_validate _).2.2.2.2.2.2.2.2.2.2.1 (by decide),
   (c5_all_conversions_validate _).2.2.2.2.2.2.2.2.2.2.2 (by decide)⟩

/-- Claim C6: the concrete scenario for input `"C:\\Users\\test\\file.txt"`: the
candidate set is [Windows, Unix, Wsl] with the expected texts, the initial index
is 0 (Windows), and after one advance the selected text is the Unix rendering. -/
theorem c6_concrete_scenario :
    PathSelection.new (("C:\\Users\\test\\file.txt").data) = some c6sel ∧
    c6sel.options = [(PathType.Windows, ("C:\\Users\\test\\file.txt").data),
                     (PathType.Unix, ("C:/Users/test/file.txt").data),
                     (PathType.Wsl, ("/mnt/c/Users/test/file.txt").data)] ∧
    c6sel.current = 0 ∧
    (PathSelection.next c6sel).current = 1 ∧
    PathSelection.get_selected_path_string (PathSelection.next c6sel)
      = ("C:/Users/test/file.txt").data := by
  decide

/-- Claim C8: for an in-range selection, three `next` calls on a 3-option
selection return `current` to its original value, and one `next` followed by one
`previous` leaves `current` unchanged. -/
theorem c8_cycle (p : PathSelection) (h : p.current < p.options.length) :
    (p.options.length = 3 →
      (((p.next).next).next).current = p.current) ∧
    ((p.next).previous).current = p.current := by
  constructor
  · intro h3
    simp only [PathSelection.next]
    rw [h3] at h ⊢
    omega
  · simp only [PathSelection.next, PathSelection.previous]
    rcases Nat.lt_or_ge (p.current + 1) p.options.length with hlt | hge
    · rw [Nat.mod_eq_of_lt hlt]
      have heq : p.current + 1 + p.options.length - 1
          = p.current + p.options.length := by omega
      rw [heq, Nat.add_mod_right, Nat.mod_eq_of_lt h]
    · have heq : p.current + 1 = p.options.length := by omega
      rw [heq, Nat.mod_self, Nat.zero_add, Nat.mod_eq_of_lt (by omega)]
      omega

/-- Claim C8, witness: the cycling laws evaluated on a concrete 3-option
selection. -/
theorem c8_witness :
    c8sel.current < c8sel.options.length ∧
    ((c8sel.options.length = 3 →
      (((c8sel.next).next).next).current = c8sel.current) ∧
    ((c8sel.next).previous).current = c8sel.current) :=
  ⟨by decide, c8_cycle c8sel (by decide)⟩

/-- Claim C9: Unix to WSL conversion either fails or passes the text through
unchanged, and it succeeds only when the Unix path already begins with the
`/mnt/<letter>` drive anchor. -/
theorem c9_unix_to_wsl (s : List Char) (_hunix : UnixPath.is_unix_path s = true) :
    (UnixPath.to_wsl s = none ∨ UnixPath.to_wsl s = some s) ∧
    (∀ t, UnixPath.to_wsl s = some t →
      t = s ∧ ∃ l rest, l.isAlpha = true ∧
        s = '/' :: 'm' :: 'n' :: 't' :: '/' :: l :: rest ∧
        (rest = [] ∨ ∃ tail, rest = '/' :: tail)) := by
  constructor
  · rw [UnixPath.to_wsl, WslPath.new]
    split
    · exact Or.inr rfl
    · exact Or.inl rfl
  · intro t ht
    rw [UnixPath.to_wsl, WslPath.new] at ht
    split at ht
    · next hv =>
      refine ⟨(Option.some.inj ht).symm, ?_⟩
      rw [WslPath.is_wsl_path, Bool.and_eq_true] at hv
      obtain ⟨l, rest, hl, hs, hr⟩ := WSL_REGEX_structure hv.2
      refine ⟨l, rest, hl, hs, ?_⟩
      rcases hr with hr | ⟨tail, htl, _⟩
      · exact Or.inl hr
      · exact Or.inr ⟨tail, htl⟩
    · exact absurd ht (by simp)

/-- Claim C9, witness: the theorem evaluated at `"/mnt/c/a"`, where the
conversion succeeds by passing the text through. -/
theorem c9_witness :
    UnixPath.is_unix_path (("/mnt/c/a").data) = true ∧
    ((UnixPath.to_wsl (("/mnt/c/a").data) = none ∨
      UnixPath.to_wsl (("/mnt/c/a").data) = some (("/mnt/c/a").data)) ∧
    (∀ t, UnixPath.to_wsl (("/mnt/c/a").data) = some t →
      t = ("/mnt/c/a").data ∧ ∃ l rest, l.isAlpha = true ∧
        ("/mnt/c/a").data = '/' :: 'm' :: 'n' :: 't' :: '/' :: l :: rest ∧
        (rest = [] ∨ ∃ tail, rest = '/' :: tail))) :=
  ⟨by decide, c9_unix_to_wsl _ (by decide)⟩

/-- Claim C10: the bare drive `"C:"` is a valid Windows path, but `to_unix` on it
fails: backslash substitution leaves the text without a forward slash, which the
Unix check rejects. -/
theorem c10_bare_drive_to_unix_fails :
    WindowsPath.is_windows_path (("C:").data) = true ∧
    (("C:").data).map backslashToSlash = ("C:").data ∧
    UnixPath.is_unix_path (("C:").data) = false ∧
    WindowsPath.to_unix (("C:").data) = none := by
  decide

lemma map_bts_stb_bts (l : List Char) :
    List.map backslashToSlash
        (List.map slashToBackslash (List.map backslashToSlash l))
      = List.map backslashToSlash l := by
  rw [List.map_map, List.map_map]
  congr 1
  funext c
  show backslashToSlash (slashToBackslash (backslashToSlash c)) = backslashToSlash c
  by_cases h1 : c = '\\'
  · subst h1; decide
  · by_cases h2 : c = '/'
    · subst h2; decide
    · simp [backslashToSlash, slashToBackslash, h1, h2]

/-- Claim C7: for a valid Windows path with a drive letter on which the
conversions succeed, the WSL rendering is stable under a full
WSL -> Windows -> WSL round trip. -/
theorem c7_roundtrip (l : Char) (rest : List Char)
    (hl : l.isAlpha = true)
    (_hp : WindowsPath.is_windows_path (l :: ':' :: rest) = true)
    (w q w2 : List Char)
    (h1 : WindowsPath.to_wsl (l :: ':' :: rest) = some w)
    (h2 : WslPath.to_windows w = some q)
    (h3 : WindowsPath.to_wsl q = some w2) :
    w2 = w := by
  have hll : l.toLower.isLower = true := toLower_isLower hl
  have hla : l.toLower.isAlpha = true := isLower_isAlpha hll
  have hlnb : l.toLower ≠ '\\' := isAlpha_ne_backslash hla
  have hup : l.toLower.toUpper.isUpper = true := toUpper_isUpper_of_lower hll
  have hua : l.toLower.toUpper.isAlpha = true := isUpper_isAlpha hup
  have huns : l.toLower.toUpper ≠ '/' := isAlpha_ne_slash hua
  have b1 : backslashToSlash '/' = '/' := by decide
  have b2 : backslashToSlash 'm' = 'm' := by decide
  have b3 : backslashToSlash 'n' = 'n' := by decide
  have b4 : backslashToSlash 't' = 't' := by decide
  have b5 : backslashToSlash l.toLower = l.toLower := if_neg hlnb
  have s1 : slashToBackslash ':' = ':' := by decide
  have s2 : slashToBackslash (l.toLower.toUpper) = l.toLower.toUpper := if_neg huns
  simp only [WindowsPath.to_wsl, windowsDriveRewrite, if_pos hl, List.map_cons,
    b1, b2, b3, b4, b5] at h1
  rw [WslPath.new] at h1
  by_cases hv : WslPath.is_wsl_path
      ('/' :: 'm' :: 'n' :: 't' :: '/' :: l.toLower ::
        List.map backslashToSlash rest) = true
  · rw [if_pos hv] at h1
    have hw : '/' :: 'm' :: 'n' :: 't' :: '/' :: l.toLower ::
        List.map backslashToSlash rest = w := Option.some.inj h1
    subst hw
    simp only [WslPath.to_windows, wslDriveRewrite, if_pos hla, List.map_cons,
      s1, s2] at h2
    rw [WindowsPath.new] at h2
    by_cases hq : WindowsPath.is_windows_path
        (l.toLower.toUpper :: ':' ::
          List.map slashToBackslash (List.map backslashToSlash rest)) = true
    · rw [if_pos hq] at h2
      have hqe : l.toLower.toUpper :: ':' ::
          List.map slashToBackslash (List.map backslashToSlash rest) = q :=
        Option.some.inj h2
      subst hqe
      simp only [WindowsPath.to_wsl, windowsDriveRewrite, if_pos hua,
        lower_toUpper_toLower hll, List.map_cons, b1, b2, b3, b4, b5,
        map_bts_stb_bts] at h3
      rw [WslPath.new, if_pos hv] at h3
      exact (Option.some.inj h3).symm
    · rw [if_neg hq] at h2
      exact absurd h2 (by simp)
  · rw [if_neg hv] at h1
    exact absurd h1 (by simp)

/-- Claim C7, witness: the round trip evaluated at `"C:\\a"`. -/
theorem c7_witness :
    ('C').isAlpha = true ∧
    WindowsPath.is_windows_path (("C:\\a").data) = true ∧
    WindowsPath.to_wsl (("C:\\a").data) = some (("/mnt/c/a").data) ∧
    WslPath.to_windows (("/mnt/c/a").data) = some (("C:\\a").data) ∧
    ("/mnt/c/a").data = ("/mnt/c/a").data :=
  ⟨by decide, by decide, by decide, by decide,
   c7_roundtrip 'C' (['\\', 'a']) (by decide) (by decide)
     (("/mnt/c/a").data) (("C:\\a").data) (("/mnt/c/a").data)
     (by decide) (by decide) (by decide)⟩
